import Mathlib

/-!
Shallow embedding of `src/ccBase/design_patterns/include/async_callback.h`
(class `cAsync::AsyncCallback`).

All public operations of `AsyncCallback` (`Start`, `Stop`, `Post`,
`Post<T>`, `WaitAll`, `GetPendingCount`) run their shared-state
manipulation inside `std::lock_guard<std::mutex> lock(mutex_)` critical
sections, so each is modelled as an atomic function on the executor state
`ExecState` (the fields `running_`, `callbacks_`, `pending_futures_`,
`worker_thread_`).  Task bodies are values of `Except Exc α`: `.ok`
models a normal return, `.error e` models a thrown exception carried by
`std::current_exception()`.  The wrapper lambdas that `Post` pushes onto
`callbacks_` are embedded as the sequence of promise operations they
perform (`set_value` / `set_exception`), and the worker loop of
`WorkerLoop` as its exit condition plus the inner drain over the queue.

The one place where the code's behaviour is *not* lock-serialized is
`Stop()`'s `worker_thread_.join()`, which runs outside the mutex; the
interleaving of a `Post` with a `Stop` that is still joining is modelled
separately by the small-step race model `RaceState` / `rstep` at the end
of the definitions.
-/

namespace cAsync

/-- Exception payload carried across the thread boundary
(`std::current_exception()` / `set_exception`). -/
abbrev Exc := String

/-- State of an untyped completion handle (`std::promise<void>` /
`std::shared_future<void>` shared state). -/
inductive HState where
  | Pending : HState
  | Fulfilled : HState
  | Failed : Exc → HState
deriving DecidableEq

/-- One operation that a wrapper lambda may perform on a promise:
`promise->set_value()` or `promise->set_exception(e)`. -/
inductive PromiseOp where
  | setValue : PromiseOp
  | setException : Exc → PromiseOp
deriving DecidableEq

/-- The sequence of promise operations performed by the untyped wrapper
lambda pushed by `Post` (async_callback.h lines 67-74):
`try { callback(); promise->set_value(); } catch (...)
 { promise->set_exception(std::current_exception()); }`.
If the body returns, exactly `set_value` runs; if the body throws,
`set_value` is never reached and exactly `set_exception` runs. -/
def wrapperOps (body : Except Exc Unit) : List PromiseOp :=
  match body with
  | .ok _ => [.setValue]
  | .error e => [.setException e]

/-- Effect of one promise operation on the handle's shared state.
A promise may only be satisfied while Pending; `std::promise` raises
`future_error` (and leaves the state unchanged) on a second set. -/
def applyOp (h : HState) (op : PromiseOp) : HState :=
  match h, op with
  | .Pending, .setValue => .Fulfilled
  | .Pending, .setException e => .Failed e
  | h, _ => h

/-- Folding a sequence of promise operations over a handle state. -/
def applyOps (h : HState) (ops : List PromiseOp) : HState :=
  ops.foldl applyOp h

/-- Outcome of executing one queued wrapper closure on the untyped
completion handle: run the wrapper's promise operations from Pending. -/
def runJob (body : Except Exc Unit) : HState :=
  applyOps .Pending (wrapperOps body)

deriving instance DecidableEq for Except

/-- One entry of `callbacks_`: the wrapped closure, identified by the
handle it completes (`id`, modelling the shared `promise`) and the
captured task body. -/
structure Job where
  id : Nat
  body : Except Exc Unit
deriving DecidableEq

/-- Shared state of one `AsyncCallback` instance, guarded by `mutex_`:
`running_`, `callbacks_` (a FIFO `std::queue`, head first), the
`pending_futures_` registry (handle ids, in push_back order), whether
`worker_thread_` is joinable, and a counter for fresh handle ids. -/
structure ExecState where
  running : Bool
  callbacks : List Job
  pending : List Nat
  workerJoinable : Bool
  nextId : Nat
deriving DecidableEq

/-- `AsyncCallback()` constructor: `running_(false)`, empty containers,
default-constructed (non-joinable) `worker_thread_`. -/
def initState : ExecState :=
  { running := false, callbacks := [], pending := [], workerJoinable := false,
    nextId := 0 }

/-- `StartUnlocked()` (lines 144-149): if not running, set `running_`
and spawn the worker thread (`worker_thread_` becomes joinable). -/
def StartUnlocked (s : ExecState) : ExecState :=
  if s.running then s
  else { s with running := true, workerJoinable := true }

/-- `Start()` (lines 29-32): take the lock and `StartUnlocked`. -/
def Start (s : ExecState) : ExecState :=
  StartUnlocked s

/-- `Post(callback)` (lines 56-78): under the lock, lazily start if not
running, push the shared future into `pending_futures_`, push the
wrapper closure onto `callbacks_`; returns the new handle's id. -/
def Post (s : ExecState) (body : Except Exc Unit) : ExecState × Nat :=
  let s1 := if s.running then s else StartUnlocked s
  let id := s1.nextId
  ({ s1 with
      pending := s1.pending ++ [id],
      callbacks := s1.callbacks ++ [{ id := id, body := body }],
      nextId := id + 1 }, id)

/-- The worker's exit test (line 156):
`if (!running_ && callbacks_.empty()) break;`. -/
def loopExit (running : Bool) (queue : List Job) : Bool :=
  !running && queue.isEmpty

/-- The inner drain loop (lines 160-166): while the queue is non-empty,
pop the head, release the lock, run the closure, re-acquire.  Returns
the execution log: each job's handle id with the handle state its
wrapper produced, in dequeue order. -/
def innerDrain : List Job → List (Nat × HState)
  | [] => []
  | j :: rest => (j.id, runJob j.body) :: innerDrain rest

/-- Behaviour of `WorkerLoop` (lines 151-168) from the point where
`running_` has been set to false and no further interference occurs
(the situation during `Stop()`'s join): the `cv_.wait` predicate is
true, so the worker wakes; first iteration: if the exit test fires,
break at once, otherwise drain the whole queue; second iteration: the
queue is now empty and `running_` still false, so the exit test fires
and the loop breaks.  Returns the log of executed jobs. -/
def workerAfterStop (queue : List Job) : List (Nat × HState) :=
  if loopExit false queue then []
  else innerDrain queue ++ (if loopExit false [] then [] else innerDrain [])

/-- Result of one `Stop()` call: the state after it returns, the log of
jobs the worker executed between the call and the join completing, and
whether a join was performed. -/
structure StopResult where
  state : ExecState
  executed : List (Nat × HState)
  joined : Bool
deriving DecidableEq

/-- `Stop()` (lines 37-49): under the lock, if not running return at
once (no join, nothing touched); otherwise clear `running_`, release
the lock, `notify_all`, and join the worker, which (per
`workerAfterStop`) drains every queued task and then exits; the join
leaves `worker_thread_` non-joinable. -/
def Stop (s : ExecState) : StopResult :=
  if s.running then
    { state := { s with running := false, callbacks := [],
                        workerJoinable := false },
      executed := workerAfterStop s.callbacks,
      joined := s.workerJoinable }
  else
    { state := s, executed := [], joined := false }

/-- `~AsyncCallback()` (line 24): `{ Stop(); }`. -/
def destructor (s : ExecState) : StopResult :=
  Stop s

/-- `WaitAll()` (lines 118-129): under the lock, copy `pending_futures_`
and clear it; then (outside the lock) wait on each copied future.
Returns the copied snapshot (the set of handles it waits on) and the
state after the call. -/
def WaitAll (s : ExecState) : List Nat × ExecState :=
  (s.pending, { s with pending := [] })

/-- `GetPendingCount()` (lines 135-138): `callbacks_.size()`. -/
def GetPendingCount (s : ExecState) : Nat :=
  s.callbacks.length

/-- Posting a list of bodies in order, each `Post` completing before the
next begins. -/
def postAll (s : ExecState) (bodies : List (Except Exc Unit)) : ExecState :=
  bodies.foldl (fun t b => (Post t b).1) s

/-- State of a typed completion handle (`std::promise<T>` shared state,
`Post<T>`). -/
inductive THandle (T : Type) where
  | PendingT : THandle T
  | FulfilledT : T → THandle T
  | FailedT : Exc → THandle T

/-- The typed wrapper lambda pushed by `Post<T>` (lines 100-109):
`try { promise->set_value(callback()); void_promise->set_value(); }
 catch (...) { promise->set_exception(e); void_promise->set_exception(e); }`.
Returns the pair (typed handle state, untyped void-signal state) the
wrapper leaves behind. -/
def runTyped {T : Type} (body : Except Exc T) : THandle T × HState :=
  match body with
  | .ok v => (.FulfilledT v, .Fulfilled)
  | .error e => (.FailedT e, .Failed e)

/-- `future<T>::get()` on a completed handle: yield the stored value or
re-raise the stored exception; `none` while still pending ( `get`
blocks). -/
def handleGet {T : Type} : THandle T → Option (Except Exc T)
  | .PendingT => none
  | .FulfilledT v => some (.ok v)
  | .FailedT e => some (.error e)

/-- Erasure of a typed body's outcome to the untyped void signal
(`void_promise` receives `set_value` exactly when `promise` does, and
the same exception otherwise). -/
def eraseT {T : Type} (body : Except Exc T) : Except Exc Unit :=
  match body with
  | .ok _ => .ok ()
  | .error e => .error e

/-- `Post<T>(callback)` (lines 86-113): same locked section as `Post`,
but the registered untyped signal is the `void_promise` whose outcome is
the erasure of the typed body's outcome. -/
def PostTyped {T : Type} (s : ExecState) (body : Except Exc T) :
    ExecState × Nat :=
  Post s (eraseT body)

/-- Well-formedness invariant of a reachable executor state: registered
handle ids are below the fresh-id counter, a stopped executor has an
empty queue (the worker drained it before exiting), and a running
executor owns a joinable worker thread. -/
def Wf (s : ExecState) : Prop :=
  (∀ i ∈ s.pending, i < s.nextId) ∧
  (s.running = false → s.callbacks = []) ∧
  (s.running = true → s.workerJoinable = true)

instance (s : ExecState) : Decidable (Wf s) := by
  unfold Wf; infer_instance

/-!
Race model for the one non-lock-serialized part of the code.

`Stop()` performs `worker_thread_.join()` *after* releasing `mutex_`
(lines 45-48), so a concurrent `Post()` can acquire the lock between
`running_ = false` and the completion of the join.  The model below
tracks, besides `running_` and the queue size, the number of live
worker threads (threads currently executing `WorkerLoop`, whether
parked in `cv_.wait`, holding the lock, or running a callback with the
lock released) and whether the member `worker_thread_` is joinable.
Each event is one lock-protected critical section of the code (or the
worker's exit step), so any sequence of events is a real interleaving.
-/

/-- Global state of the race model. -/
structure RaceState where
  running : Bool
  queued : Nat
  liveWorkers : Nat
  joinable : Bool
  terminated : Bool
deriving DecidableEq

/-- The spawn in `StartUnlocked` (lines 146-147):
`running_ = true; worker_thread_ = std::thread(&WorkerLoop, this);`.
The `std::thread` temporary is constructed first (a new live worker),
then move-assigned into `worker_thread_`; per the C++ standard,
move-assigning onto a thread object for which `joinable()` is true
calls `std::terminate()`. -/
def spawnAssign (s : RaceState) : RaceState :=
  if s.joinable then
    { s with running := true, liveWorkers := s.liveWorkers + 1,
             terminated := true }
  else
    { s with running := true, liveWorkers := s.liveWorkers + 1,
             joinable := true }

/-- One atomic event of the race model. -/
inductive REvent where
  /-- `Post`'s critical section (lines 61-75): lazily start if not
  running, then enqueue. -/
  | postEv : REvent
  /-- `Stop`'s critical section (lines 39-44): if running, clear the
  flag. -/
  | stopFlagEv : REvent
  /-- The worker pops the head of the queue under the lock and releases
  the lock to execute it (lines 161-163). -/
  | workerTakeEv : REvent
  /-- The worker observes `!running_ && callbacks_.empty()` and breaks
  out of `WorkerLoop` (lines 156-158), ending the thread. -/
  | workerExitEv : REvent
deriving DecidableEq

/-- Small-step semantics of the race model. -/
def rstep (s : RaceState) : REvent → RaceState
  | .postEv =>
      let s1 := if s.running then s else spawnAssign s
      { s1 with queued := s1.queued + 1 }
  | .stopFlagEv =>
      if s.running then { s with running := false } else s
  | .workerTakeEv =>
      if 0 < s.queued then { s with queued := s.queued - 1 } else s
  | .workerExitEv =>
      if s.running = false ∧ s.queued = 0 ∧ 0 < s.liveWorkers then
        { s with liveWorkers := s.liveWorkers - 1 }
      else s

/-- Running a schedule of events from a state. -/
def rrun (s : RaceState) (es : List REvent) : RaceState :=
  es.foldl rstep s

/-- A fresh `AsyncCallback`: stopped, empty queue, no worker. -/
def rinit : RaceState :=
  { running := false, queued := 0, liveWorkers := 0, joinable := false,
    terminated := false }

/-- The racing schedule: a first `Post` lazily starts the worker; the
worker dequeues that task and executes it with the lock released;
`Stop` runs its critical section (clearing `running_`) and proceeds,
outside the lock, towards `worker_thread_.join()`; before the join
completes, a second `Post` acquires the lock, sees `running_ == false`
and calls `StartUnlocked`. -/
def raceSchedule : List REvent :=
  [.postEv, .workerTakeEv, .stopFlagEv, .postEv]

/-! Shared lemmas. -/

theorem innerDrain_eq_map (q : List Job) :
    innerDrain q = q.map (fun j => (j.id, runJob j.body)) := by
  induction q with
  | nil => rfl
  | cons j rest ih => simp [innerDrain, ih]

theorem Post_callbacks (s : ExecState) (b : Except Exc Unit) :
    (Post s b).1.callbacks = s.callbacks ++ [{ id := s.nextId, body := b }] := by
  by_cases h : s.running <;> simp [Post, StartUnlocked, h]

theorem Post_pending (s : ExecState) (b : Except Exc Unit) :
    (Post s b).1.pending = s.pending ++ [s.nextId] := by
  by_cases h : s.running <;> simp [Post, StartUnlocked, h]

theorem Post_snd (s : ExecState) (b : Except Exc Unit) :
    (Post s b).2 = s.nextId := by
  by_cases h : s.running <;> simp [Post, StartUnlocked, h]

theorem Post_running (s : ExecState) (b : Except Exc Unit) :
    (Post s b).1.running = true := by
  by_cases h : s.running <;> simp [Post, StartUnlocked, h]

theorem workerAfterStop_eq_map (q : List Job) :
    workerAfterStop q = q.map (fun j => (j.id, runJob j.body)) := by
  cases q with
  | nil => simp [workerAfterStop, loopExit, innerDrain]
  | cons j rest =>
      simp [workerAfterStop, loopExit, innerDrain_eq_map, innerDrain]

/-! Claim theorems. -/

/-- C1: Graceful drain on stop.  The worker loop's exit test fires
exactly when the stop flag is cleared AND the queue is empty; and for a
running executor, the `Stop()` call (which joins the worker) returns
only after every job that was in `callbacks_` at the time of the call
has been dequeued and executed — its execution log is exactly the queue
contents at the call, and the queue is empty afterwards. -/
theorem C1_graceful_drain :
    (∀ (r : Bool) (q : List Job), loopExit r q = true ↔ (r = false ∧ q = [])) ∧
    (∀ s : ExecState, s.running = true →
      (Stop s).executed = s.callbacks.map (fun j => (j.id, runJob j.body)) ∧
      (Stop s).state.callbacks = []) := by
  constructor
  · intro r q
    cases r <;> cases q <;> simp [loopExit]
  · intro s h
    refine ⟨?_, ?_⟩ <;> simp [Stop, h, workerAfterStop_eq_map]

/-- Witness for C1 at a concrete running state with two queued tasks. -/
def exRun : ExecState :=
  { running := true,
    callbacks := [{ id := 0, body := .ok () }, { id := 1, body := .error "boom" }],
    pending := [0, 1], workerJoinable := true, nextId := 2 }

theorem C1_graceful_drain_w :
    exRun.running = true ∧
    ((Stop exRun).executed = exRun.callbacks.map (fun j => (j.id, runJob j.body)) ∧
     (Stop exRun).state.callbacks = []) :=
  ⟨rfl, C1_graceful_drain.2 exRun rfl⟩

/-- C2: Failure capture and isolation.  Executing a queue containing a
job whose body throws produces `Failed e` in exactly that job's handle,
while the log of every job before and after it is exactly what it would
be without the failing job in between (the worker is not interrupted
and continues with the next queued task); moreover the drain executes
every queued job (no job is skipped because an earlier one failed, and
the worker never terminates mid-queue). -/
theorem C2_failure_isolation :
    (∀ (q1 q2 : List Job) (i : Nat) (e : Exc),
      innerDrain (q1 ++ { id := i, body := .error e } :: q2) =
        innerDrain q1 ++ (i, HState.Failed e) :: innerDrain q2) ∧
    (∀ q : List Job, (innerDrain q).length = q.length) := by
  constructor
  · intro q1 q2 i e
    simp [innerDrain_eq_map]
    rfl
  · intro q
    simp [innerDrain_eq_map]

/-- C3: FIFO execution order.  Posting a sequence of bodies appends
them at the tail of `callbacks_` in submission order (queue order
equals enqueue-completion order), and the worker's drain consumes the
queue from the head producing the execution log in exactly queue order
(job ids appear in the log in queue order, no reordering). -/
theorem C3_fifo_order :
    (∀ (s : ExecState) (bodies : List (Except Exc Unit)),
      (postAll s bodies).callbacks.map Job.body =
        s.callbacks.map Job.body ++ bodies) ∧
    (∀ q : List Job, (innerDrain q).map Prod.fst = q.map Job.id) := by
  constructor
  · intro s bodies
    induction bodies generalizing s with
    | nil => simp [postAll]
    | cons b bs ih =>
        have h1 : postAll s (b :: bs) = postAll (Post s b).1 bs := rfl
        rw [h1, ih, Post_callbacks]
        simp
  · intro q
    simp [innerDrain_eq_map]

/-- C4: WaitAll snapshot semantics.  `WaitAll` waits on exactly the
handles registered in `pending_futures_` at the instant of the call
(the copied snapshot), clears the registry while leaving every other
field of the executor untouched, and a handle created by a `Post` that
completes after the `WaitAll` critical section is not in the snapshot,
so it is only covered by a subsequent `WaitAll`. -/
theorem C4_waitAll_snapshot :
    ∀ s : ExecState,
      (WaitAll s).1 = s.pending ∧
      (WaitAll s).2 = { s with pending := [] } ∧
      (Wf s → ∀ b : Except Exc Unit,
        (Post (WaitAll s).2 b).2 ∉ (WaitAll s).1) := by
  intro s
  refine ⟨rfl, rfl, ?_⟩
  intro hwf b hmem
  rw [Post_snd] at hmem
  exact absurd (hwf.1 _ hmem) (lt_irrefl _)

/-- Witness for C4 at a concrete state with two registered handles. -/
def exWaitAll : ExecState :=
  { running := true, callbacks := [], pending := [0, 1],
    workerJoinable := true, nextId := 2 }

theorem C4_waitAll_snapshot_w :
    Wf exWaitAll ∧
    (Post (WaitAll exWaitAll).2 (.ok ())).2 ∉ (WaitAll exWaitAll).1 :=
  ⟨by decide, (C4_waitAll_snapshot exWaitAll).2.2 (by decide) (.ok ())⟩

/-- C5: Lifecycle.  `Start` is idempotent and a no-op on a running
executor; any untyped or typed submission on a stopped executor flips
it to running and spawns the worker; in particular a submission made
after `Stop()` has returned (whose post-state has `running_ == false`)
re-arms the executor rather than being rejected. -/
theorem C5_lifecycle_rearm :
    (∀ s : ExecState, Start (Start s) = Start s) ∧
    (∀ s : ExecState, s.running = true → Start s = s) ∧
    (∀ (s : ExecState) (b : Except Exc Unit), s.running = false →
      (Post s b).1.running = true ∧ (Post s b).1.workerJoinable = true) ∧
    (∀ (T : Type) (s : ExecState) (b : Except Exc T), s.running = false →
      (PostTyped s b).1.running = true) ∧
    (∀ (s : ExecState) (b : Except Exc Unit),
      (Post (Stop s).state b).1.running = true) := by
  refine ⟨?_, ?_, ?_, ?_, ?_⟩
  · intro s
    by_cases h : s.running <;> simp [Start, StartUnlocked, h]
  · intro s h
    simp [Start, StartUnlocked, h]
  · intro s b h
    simp [Post, StartUnlocked, h]
  · intro T s b h
    simp [PostTyped, Post, StartUnlocked, h]
  · intro s b
    exact Post_running _ b

/-- Witness for C5: posting on the fresh (stopped) executor spawns the
worker and marks it running. -/
theorem C5_lifecycle_rearm_w :
    initState.running = false ∧
    ((Post initState (.ok ())).1.running = true ∧
     (Post initState (.ok ())).1.workerJoinable = true) :=
  ⟨rfl, C5_lifecycle_rearm.2.2.1 initState (.ok ()) rfl⟩

/-- C6: One-shot handle completion.  The untyped wrapper performs
exactly one promise operation (never both, never twice); applied to a
Pending handle it always leaves Pending; a returning body fulfills the
handle, a throwing body fails it with the thrown exception; and no
promise operation moves a non-Pending handle (no backward
transitions). -/
theorem C6_one_shot_handle :
    ∀ body : Except Exc Unit,
      (wrapperOps body).length = 1 ∧
      applyOps .Pending (wrapperOps body) ≠ .Pending ∧
      (∀ u : Unit, body = .ok u →
        applyOps .Pending (wrapperOps body) = .Fulfilled) ∧
      (∀ e : Exc, body = .error e →
        applyOps .Pending (wrapperOps body) = .Failed e) ∧
      (∀ (h : HState) (op : PromiseOp), h ≠ .Pending → applyOp h op = h) := by
  intro body
  refine ⟨?_, ?_, ?_, ?_, ?_⟩
  · cases body <;> rfl
  · cases body <;> simp [wrapperOps, applyOps, applyOp]
  · intro u hu
    subst hu
    rfl
  · intro e he
    subst he
    rfl
  · intro h op hne
    cases h with
    | Pending => exact absurd rfl hne
    | Fulfilled => cases op <;> rfl
    | Failed e => cases op <;> rfl

/-- Witness for C6: a throwing body fails its handle, and a promise
operation on an already-Fulfilled handle changes nothing. -/
theorem C6_one_shot_handle_w :
    ((Except.error "boom" : Except Exc Unit) = .error "boom" ∧
      applyOps .Pending (wrapperOps (.error "boom")) = .Failed "boom") ∧
    (HState.Fulfilled ≠ HState.Pending ∧
      applyOp .Fulfilled .setValue = .Fulfilled) :=
  ⟨⟨rfl, (C6_one_shot_handle (.error "boom")).2.2.2.1 "boom" rfl⟩,
   ⟨by decide,
    (C6_one_shot_handle (.ok ())).2.2.2.2 .Fulfilled .setValue (by decide)⟩⟩

/-- C7: Typed submission coupling.  Retrieving the value of the typed
handle after the typed wrapper ran yields exactly the body's outcome
(a body returning `v` yields `v`, a throwing body re-raises its
exception); the untyped void signal the wrapper completes is exactly
the erased outcome of the typed body (fulfilled exactly when the typed
handle is fulfilled, failed with the same exception exactly when it
fails); and `Post<T>` registers that untyped signal's handle with the
`pending_futures_` registry, so `WaitAll` awaits it uniformly without
depending on `T`. -/
theorem C7_typed_coupling :
    ∀ (T : Type) (body : Except Exc T) (s : ExecState),
      handleGet (runTyped body).1 = some body ∧
      (runTyped body).2 = runJob (eraseT body) ∧
      (runTyped body).2 = (match (runTyped body).1 with
        | .PendingT => HState.Pending
        | .FulfilledT _ => HState.Fulfilled
        | .FailedT e => HState.Failed e) ∧
      (PostTyped s body).1.pending = s.pending ++ [s.nextId] ∧
      (PostTyped s body).2 = s.nextId := by
  intro T body s
  refine ⟨?_, ?_, ?_, ?_, ?_⟩
  · cases body <;> rfl
  · cases body <;> rfl
  · cases body <;> rfl
  · exact Post_pending s (eraseT body)
  · exact Post_snd s (eraseT body)

/-- C8: the Post/Stop race.  Along the real interleaving
`raceSchedule` — lazily start the worker with a first `Post`, let the
worker dequeue that task and execute it with the lock released, run
`Stop`'s critical section (clearing `running_`, the join not yet
performed since it happens outside the lock), then run a second
`Post`'s critical section — the executor ends with TWO live worker
threads, and `StartUnlocked`'s move-assignment onto the still-joinable
`worker_thread_` calls `std::terminate`.  This refutes the claim that
at most one worker thread exists at any time across every
interleaving. -/
theorem C8_race_two_workers :
    (rrun rinit raceSchedule).liveWorkers = 2 ∧
    (rrun rinit raceSchedule).terminated = true := by
  constructor <;> rfl

/-- C9: destruction drains.  The destructor body is exactly a `Stop()`
call; hence on any well-formed state destruction leaves the queue
empty, executes one log entry per job queued at destruction time
(nothing silently discarded), and joins the worker whenever one was
running. -/
theorem C9_destructor_drains :
    ∀ s : ExecState,
      destructor s = Stop s ∧
      (Wf s →
        (destructor s).state.callbacks = [] ∧
        (destructor s).executed.length = s.callbacks.length ∧
        (s.running = true → (destructor s).joined = true)) := by
  intro s
  refine ⟨rfl, ?_⟩
  intro hwf
  by_cases h : s.running
  · refine ⟨?_, ?_, ?_⟩
    · simp [destructor, Stop, h]
    · simp [destructor, Stop, h, workerAfterStop_eq_map]
    · intro _
      simp [destructor, Stop, h, hwf.2.2 h]
  · have hb : s.running = false := by simpa using h
    have hq : s.callbacks = [] := hwf.2.1 hb
    refine ⟨?_, ?_, ?_⟩ <;> simp [destructor, Stop, hb, hq]

/-- Witness for C9 at a concrete running state with one queued task. -/
def exDtor : ExecState :=
  { running := true, callbacks := [{ id := 5, body := .ok () }],
    pending := [5], workerJoinable := true, nextId := 6 }

theorem C9_destructor_drains_w :
    Wf exDtor ∧
    ((destructor exDtor).state.callbacks = [] ∧
     (destructor exDtor).executed.length = exDtor.callbacks.length ∧
     (exDtor.running = true → (destructor exDtor).joined = true)) :=
  ⟨by decide, (C9_destructor_drains exDtor).2 (by decide)⟩

/-- C10: Stop on a stopped executor.  When `running_` is already false,
`Stop()` returns inside the critical section: no join is attempted, no
job is executed, and the whole state (queue, registry, flag, worker
handle) is returned unchanged; consequently the `Stop` immediately
following any `Stop` is such a no-op. -/
theorem C10_stop_idempotent :
    (∀ s : ExecState, s.running = false →
      Stop s = { state := s, executed := [], joined := false }) ∧
    (∀ s : ExecState,
      Stop (Stop s).state =
        { state := (Stop s).state, executed := [], joined := false }) := by
  constructor
  · intro s h
    simp [Stop, h]
  · intro s
    by_cases h : s.running <;> simp [Stop, h]

/-- Witness for C10 at a concrete stopped state with a registered
handle left over. -/
def exStopped : ExecState :=
  { running := false, callbacks := [], pending := [3],
    workerJoinable := false, nextId := 4 }

theorem C10_stop_idempotent_w :
    exStopped.running = false ∧
    Stop exStopped = { state := exStopped, executed := [], joined := false } :=
  ⟨rfl, C10_stop_idempotent.1 exStopped rfl⟩

end cAsync
